import Mathlib

/-!
Verification of the scan-stream client (src/app.rs, src/sse.rs): the
resumable SSE event-stream client and per-job status state machine.

The Rust source is shallowly embedded below.  Timestamps produced by
`performance.now()` (finite `f64` millisecond values) are modelled as
rationals; the Rust `as u64` / `as u32` saturating float-to-int casts are
modelled explicitly on the rational value a finite float denotes.
-/

namespace ScanStream

/-- Model of Rust `std::time::Duration`: whole seconds plus a nanosecond
part below 10^9 (as produced by `Duration::new`). -/
structure Duration where
  secs : Nat
  nanos : Nat
  deriving DecidableEq, Repr

/-- `Duration::new(secs, nanos)`: carries nanoseconds ≥ 10^9 into seconds. -/
def durationNew (secs nanos : Nat) : Duration :=
  { secs := secs + nanos / 1000000000, nanos := nanos % 1000000000 }

/-- Rust `amt as u64` for a finite `f64` value `amt` (here: the rational it
denotes): truncation toward zero, saturating at the ends of `u64`. -/
def rustCastU64 (x : ℚ) : Nat :=
  if x < 0 then 0 else min (Int.toNat ⌊x⌋) (2 ^ 64 - 1)

/-- Rust `amt as u32` for a finite `f64` value: truncation toward zero,
saturating at the ends of `u32`. -/
def rustCastU32 (x : ℚ) : Nat :=
  if x < 0 then 0 else min (Int.toNat ⌊x⌋) (2 ^ 32 - 1)

/-- `fn perf_to_duration(amt: f64) -> Duration` from src/app.rs:
`Duration::new((amt as u64) / 1_000, ((amt as u32) % 1_000) * 1_000_000)`. -/
def perf_to_duration (amt : ℚ) : Duration :=
  durationNew (rustCastU64 amt / 1000) ((rustCastU32 amt % 1000) * 1000000)

/-- `enum ScanState` from src/app.rs: the per-job status variant. -/
inductive ScanState where
  | scanning (started : ℚ)
  | scanned (duration : Duration)
  | failed (duration : Duration)
  deriving DecidableEq, Repr

/-- `enum ScanStatusState` from src/app.rs: the wire-level status tag,
deserialized by serde with `rename_all = "lowercase"`. -/
inductive ScanStatusState where
  | scanning
  | scanned
  | failed
  deriving DecidableEq, Repr

/-- `struct ScanStatus` from src/app.rs: one wire-level notification. -/
structure ScanStatus where
  scan_id : Int
  status : ScanStatusState
  deriving DecidableEq, Repr

/-- A job status from which no further transition is accepted. -/
def ScanState.isTerminal : ScanState → Bool
  | .scanning _ => false
  | _ => true

/-- The registry map `BTreeMap<i32, Scan>`, modelled as a key-sorted
association list from scan id to status (`Scan.scan_id` always equals the
key, so only the status is stored). -/
def ScanMap := List (Int × ScanState)

instance : DecidableEq ScanMap := by
  unfold ScanMap; infer_instance

/-- Lookup in the registry (`BTreeMap::get` / `entry` probe). -/
def lookupScan : ScanMap → Int → Option ScanState
  | [], _ => none
  | (k, v) :: rest, id => if id = k then some v else lookupScan rest id

/-- Ordered insert-or-replace (`BTreeMap` write of one key). -/
def insertScan (id : Int) (st : ScanState) : ScanMap → ScanMap
  | [] => [(id, st)]
  | (k, v) :: rest =>
    if id < k then (id, st) :: (k, v) :: rest
    else if id = k then (id, st) :: rest
    else (k, v) :: insertScan id st rest

/-- The per-notification transition from `App::update`'s `Msg::ScanEvent`
loop body: `entry(..).or_insert(Scan { status: Scanning(now), .. })`
followed by the `scan.status = match scan.status { .. }` table. -/
def applyOne (now : ℚ) (scans : ScanMap) (e : ScanStatus) : ScanMap :=
  let cur := (lookupScan scans e.scan_id).getD (.scanning now)
  let next : ScanState :=
    match cur, e.status with
    | .scanning _, .scanning => cur
    | .scanning started, .scanned => .scanned (perf_to_duration (now - started))
    | .scanning started, .failed => .failed (perf_to_duration (now - started))
    | _, _ => cur
  insertScan e.scan_id next scans

/-- `struct State` from src/app.rs: the registry plus the resume cursor. -/
structure State where
  scans : ScanMap
  last_event_id : Option String
  deriving DecidableEq

/-- Observable side effects of one `App::update` dispatch: console output
and (via `Drop for EventSourceTask` in src/sse.rs) closing a connection. -/
inductive Effect where
  | log (msg : String)
  | warn (msg : String)
  | closeConn (url : String)
  deriving DecidableEq, Repr

/-- `impl fmt::Display for ScanStatusState`. -/
def displayScanStatusState : ScanStatusState → String
  | .scanning => "scanning"
  | .scanned => "scanned"
  | .failed => "failed"

/-- `impl fmt::Display for ScanState`. -/
def displayScanState : ScanState → String
  | .scanning _ => "scanning"
  | .scanned _ => "scanned"
  | .failed _ => "failed"

/-- `impl fmt::Display for ScanStatus`: `({scan_id}, {status})`. -/
def displayScanStatus (e : ScanStatus) : String :=
  "(" ++ toString e.scan_id ++ ", " ++ displayScanStatusState e.status ++ ")"

/-- `impl fmt::Display for Scan`: `({scan_id}, {status})`. -/
def displayScan (id : Int) (st : ScanState) : String :=
  "(" ++ toString id ++ ", " ++ displayScanState st ++ ")"

/-- One iteration of the `for e in scan_statuses` loop in
`App::update` (`Msg::ScanEvent`): log the event, fold the status through
`applyOne` (warning when the current state is terminal), and set
`last_event_id` from the batch cursor. -/
def scanEventStep (now : ℚ) (cursor : String) (acc : State × List Effect)
    (e : ScanStatus) : State × List Effect :=
  let st := acc.1
  let cur := (lookupScan st.scans e.scan_id).getD (.scanning now)
  let warns : List Effect :=
    match cur with
    | .scanning _ => []
    | _ => [.warn ("Tried to update current " ++ displayScan e.scan_id cur ++
        " with new event " ++ displayScanStatus e)]
  (⟨applyOne now st.scans e, some cursor⟩,
    acc.2 ++ [.log ("received event: " ++ displayScanStatus e ++ ", id " ++ cursor)] ++ warns)

/-- The whole `Msg::ScanEvent` arm of `App::update`: `now` is captured once
(`performance_now()`), then every notification of the batch is folded. -/
def applyScanEvent (now : ℚ) (s : State) (events : List ScanStatus)
    (cursor : String) : State × List Effect :=
  events.foldl (scanEventStep now cursor) (s, [])

/-- `MERCURE_URL` from src/app.rs. -/
def MERCURE_URL : String :=
  ".well-known/mercure?topic=https%3A%2F%2Fsome.example.com%2Fstream"

/-- The subscription URL built in `App::connect_sse_task`: the recorded
resume cursor, when present, is appended as `&Last-Event-ID=`. -/
def sseUrl : Option String → String
  | some id => MERCURE_URL ++ "&Last-Event-ID=" ++ id
  | none => MERCURE_URL

/-- `struct EventSourceTask` (src/sse.rs), as visible to the supervisor:
the URL it was opened with.  `is_active` samples external transport
readiness, so liveness is an input of the probe step, not a stored field. -/
structure EventSourceTask where
  url : String
  deriving DecidableEq, Repr

/-- `App::connect_sse_task`: opens an `EventSource` on `sseUrl` built from
the recorded cursor and always returns `Some` task. -/
def connect_sse_task (last_event_id : Option String) : Option EventSourceTask :=
  some ⟨sseUrl last_event_id⟩

/-- The `App` component state: `state` plus the current connection. -/
structure AppState where
  state : State
  event_source_task : Option EventSourceTask

/-- `enum Msg` from src/app.rs.  `ConnectionCheck` carries the value
`task.is_active()` reads from the transport at probe time. -/
inductive Msg where
  | connectionCheck (isActive : Bool)
  | logError (error : String)
  | scanEvent (events : List ScanStatus) (cursor : String)
  | timer

/-- `App::update` from src/app.rs.  `now` is the value `performance_now()`
returns during this dispatch.  Replacing `event_source_task` drops the old
task, whose `Drop` impl (src/sse.rs) closes the connection: that single
close is recorded as a `closeConn` effect. -/
def updateApp (now : ℚ) (s : AppState) : Msg → AppState × List Effect
  | .connectionCheck isActive =>
    match s.event_source_task with
    | some task =>
      if !isActive then
        ({ s with event_source_task := connect_sse_task s.state.last_event_id },
          [.warn "SSE connection lost. Reconnecting!", .closeConn task.url])
      else (s, [])
    | none =>
      ({ s with event_source_task := connect_sse_task s.state.last_event_id },
        [.warn "SSE connection lost. Reconnecting!"])
  | .logError error => (s, [.log ("Got error: " ++ error)])
  | .scanEvent events cursor =>
    let (st, effs) := applyScanEvent now s.state events cursor
    ({ s with state := st }, effs)
  | .timer => (s, [])

/-- `App::create`: empty registry, no cursor, and the initial
`connect_sse_task` call made with `last_event_id = None`. -/
def createApp : AppState :=
  { state := { scans := [], last_event_id := none },
    event_source_task := connect_sse_task none }

/-! ### The event decoder

`connect_sse_task`'s callback receives the raw event text and runs
`serde_json::from_str::<Vec<ScanStatus>>` on it.  The generic JSON parse of
the raw string is abstracted as an `Option Json` (`none` = text that is not
JSON at all); the schema layer — exactly what the serde derives on
`ScanStatus` / `ScanStatusState` accept — is embedded below. -/

/-- A parsed JSON value (numbers restricted to integers, which covers every
payload the schema could accept: `scanId` must be an integer). -/
inductive Json where
  | null
  | bool (b : Bool)
  | num (n : Int)
  | str (s : String)
  | arr (elems : List Json)
  | obj (fields : List (String × Json))

/-- Deserialization of `ScanStatusState`: a unit-variant enum with
`#[serde(rename_all = "lowercase")]` accepts exactly the three lower-case
variant names, as JSON strings. -/
def decodeScanStatusState : Json → Option ScanStatusState
  | .str s =>
    if s = "scanning" then some .scanning
    else if s = "scanned" then some .scanned
    else if s = "failed" then some .failed
    else none
  | _ => none

/-- Deserialization of one `ScanStatus` object: `#[serde(rename_all =
"camelCase")]` expects field `scanId` (an integer fitting `i32`) and field
`status`; unknown fields are ignored, a missing field is an error. -/
def decodeScanStatus : Json → Option ScanStatus
  | .obj fields =>
    match fields.lookup "scanId", fields.lookup "status" with
    | some (.num n), some stJson =>
      if -(2 ^ 31) ≤ n ∧ n < 2 ^ 31 then
        (decodeScanStatusState stJson).map (fun st => ⟨n, st⟩)
      else none
    | _, _ => none
  | _ => none

/-- Deserialization of the whole payload `Vec<ScanStatus>`: a JSON array
whose elements all decode; one bad element fails the entire batch. -/
def decodeBatch : Json → Option (List ScanStatus)
  | .arr elems => elems.mapM decodeScanStatus
  | _ => none

/-- The callback closure in `App::connect_sse_task`: the raw event text
(`none` when the transport handed over non-text or the text is not JSON —
the two `Err`/parse-failure paths) and the message id are turned into a
`Msg`.  Decode failure becomes `Msg::LogError`, never a crash. -/
def callbackMsg : Option Json → Option String → Msg
  | some json, some cursor =>
    match decodeBatch json with
    | some events => .scanEvent events cursor
    | none => .logError "Could not deserialize Json event."
  | none, some _ => .logError "Something weird with event text or last message id :("
  | _, none => .logError "Something weird with event text or last message id :("

/-! ### Batch sequences (for the resume-cursor invariant) -/

/-- One decoded notification batch as delivered to the event loop: its
notifications, its cursor (`last_event_id`), and the `performance_now()`
value at its dispatch. -/
structure Batch where
  events : List ScanStatus
  cursor : String
  now : ℚ

/-- Sequentially dispatch a list of decoded batches through the
`Msg::ScanEvent` arm. -/
def processBatches (s : State) : List Batch → State
  | [] => s
  | b :: bs => processBatches (applyScanEvent b.now s b.events b.cursor).1 bs

/-- Spec-side description of the stored cursor after a batch sequence: the
cursor of the last batch that contained at least one notification, or the
initial value when no batch did. -/
def lastNonemptyCursor (init : Option String) : List Batch → Option String
  | [] => init
  | b :: bs =>
    lastNonemptyCursor (if b.events.isEmpty then init else some b.cursor) bs

/-- A flat sequence of timestamped notifications applied one at a time
(several batches flattened; each notification carries the
`performance_now()` of its batch). -/
def applySeq (scans : ScanMap) : List (ScanStatus × ℚ) → ScanMap
  | [] => scans
  | (e, now) :: rest => applySeq (applyOne now scans e) rest

/-! ### Basic lemmas about the registry map -/

theorem lookupScan_insertScan_self (s : ScanMap) (id : Int) (st : ScanState) :
    lookupScan (insertScan id st s) id = some st := by
  induction s with
  | nil => simp [insertScan, lookupScan]
  | cons kv rest ih =>
    obtain ⟨k, v⟩ := kv
    by_cases h1 : id < k
    · simp [insertScan, h1, lookupScan]
    · by_cases h2 : id = k
      · simp [insertScan, h1, h2, lookupScan]
      · simp [insertScan, h1, h2, lookupScan, ih]

theorem lookupScan_insertScan_ne (s : ScanMap) (id k : Int) (st : ScanState)
    (h : id ≠ k) : lookupScan (insertScan k st s) id = lookupScan s id := by
  induction s with
  | nil => simp [insertScan, lookupScan, h]
  | cons kv rest ih =>
    obtain ⟨k', v⟩ := kv
    by_cases h1 : k < k'
    · simp [insertScan, h1, lookupScan, h]
    · by_cases h2 : k = k'
      · subst h2; simp [insertScan, h1, lookupScan, h]
      · simp [insertScan, h1, h2, lookupScan, ih]

theorem perf_to_duration_zero : perf_to_duration 0 = ⟨0, 0⟩ := by
  norm_num [perf_to_duration, rustCastU64, rustCastU32, durationNew]

/-- A terminal registry entry is never modified by `applyOne`: the
transition table's catch-all arm keeps the current status. -/
theorem applyOne_preserves_terminal (now : ℚ) (s : ScanMap) (e : ScanStatus)
    (id : Int) (st : ScanState) (hterm : st.isTerminal = true)
    (h : lookupScan s id = some st) :
    lookupScan (applyOne now s e) id = some st := by
  by_cases hid : id = e.scan_id
  · subst hid
    cases st with
    | scanning started => simp [ScanState.isTerminal] at hterm
    | scanned d => simp [applyOne, h, lookupScan_insertScan_self]
    | failed d => simp [applyOne, h, lookupScan_insertScan_self]
  · unfold applyOne
    rw [lookupScan_insertScan_ne _ _ _ _ hid, h]

/-- C1: once a job's status is `Scanned` or `Failed`, no subsequent
notification (at any later time) changes its status tag or stored
duration: the registry entry survives any notification sequence intact. -/
theorem terminal_status_immutable (seq : List (ScanStatus × ℚ)) (s : ScanMap)
    (id : Int) (st : ScanState) (hterm : st.isTerminal = true)
    (h : lookupScan s id = some st) :
    lookupScan (applySeq s seq) id = some st := by
  induction seq generalizing s with
  | nil => exact h
  | cons p rest ih =>
    exact ih _ (applyOne_preserves_terminal p.2 s p.1 id st hterm h)

theorem terminal_status_immutable_witness :
    lookupScan (applySeq [((1 : Int), ScanState.scanned ⟨0, 0⟩)]
      [(⟨1, .failed⟩, 5), (⟨1, .scanning⟩, 9)]) 1
      = some (ScanState.scanned ⟨0, 0⟩) :=
  terminal_status_immutable _ _ _ _ (by decide) (by decide)

/-- C2: `apply` is idempotent under notification redelivery: a
notification whose first application produced no change produces no change
again (at any later dispatch time), and applying one notification twice to
a fresh registry yields the same final state as applying it once. -/
theorem apply_idempotent (s : ScanMap) (e : ScanStatus) (t1 t2 : ℚ)
    (c : String) :
    (applyOne t1 s e = s → applyOne t2 s e = s)
    ∧ (applyScanEvent t2 (applyScanEvent t1 ⟨[], none⟩ [e] c).1 [e] c).1
        = (applyScanEvent t1 ⟨[], none⟩ [e] c).1 := by
  constructor
  · intro h
    have hl : lookupScan s e.scan_id
        = lookupScan (applyOne t1 s e) e.scan_id := by rw [h]
    cases hb : lookupScan s e.scan_id with
    | none =>
      rw [hb] at hl
      cases hst : e.status <;>
        simp [applyOne, hb, hst, lookupScan_insertScan_self] at hl
    | some cur =>
      cases cur with
      | scanning started =>
        cases hst : e.status with
        | scanning => simpa [applyOne, hb, hst] using h
        | scanned =>
          rw [hb] at hl
          simp [applyOne, hb, hst, lookupScan_insertScan_self] at hl
        | failed =>
          rw [hb] at hl
          simp [applyOne, hb, hst, lookupScan_insertScan_self] at hl
      | scanned d => simpa [applyOne, hb] using h
      | failed d => simpa [applyOne, hb] using h
  · cases hst : e.status <;>
      simp [applyScanEvent, scanEventStep, applyOne, lookupScan, insertScan,
        hst, lookupScan_insertScan_self]

theorem apply_idempotent_witness :
    applyOne 7 [((1 : Int), ScanState.scanned ⟨0, 0⟩)] ⟨1, .failed⟩
      = [((1 : Int), ScanState.scanned ⟨0, 0⟩)] :=
  (apply_idempotent [((1 : Int), ScanState.scanned ⟨0, 0⟩)] ⟨1, .failed⟩ 3 7
    "c").1 (by decide)

/-- C3: a scan id not yet in the registry is created with status
`Scanning` timestamped at the application time `now`; a never-before-seen
job receiving `scanned` (resp. `failed`) ends `Scanned` (resp. `Failed`)
with duration zero (hence ≥ 0), never `Scanning`. -/
theorem implicit_scanning_origin (s : ScanMap) (id : Int) (now : ℚ)
    (h : lookupScan s id = none) :
    lookupScan (applyOne now s ⟨id, .scanning⟩) id
      = some (.scanning now)
    ∧ lookupScan (applyOne now s ⟨id, .scanned⟩) id
      = some (.scanned ⟨0, 0⟩)
    ∧ lookupScan (applyOne now s ⟨id, .failed⟩) id
      = some (.failed ⟨0, 0⟩) := by
  refine ⟨?_, ?_, ?_⟩ <;>
    simp [applyOne, h, perf_to_duration_zero, lookupScan_insertScan_self]

theorem implicit_scanning_origin_witness :
    lookupScan (applyOne 5 [] ⟨1, .scanned⟩) 1
      = some (ScanState.scanned ⟨0, 0⟩) :=
  (implicit_scanning_origin [] 1 5 rfl).2.1

/-! ### The resume cursor -/

theorem foldl_scanEventStep_cursor (now : ℚ) (c : String)
    (events : List ScanStatus) :
    ∀ acc : State × List Effect,
      (events.foldl (scanEventStep now c) acc).1.last_event_id
        = if events.isEmpty then acc.1.last_event_id else some c := by
  induction events with
  | nil => intro acc; rfl
  | cons e rest ih =>
    intro acc
    rw [List.foldl_cons, ih]
    have hstep : (scanEventStep now c acc e).1.last_event_id = some c := rfl
    cases hr : rest.isEmpty <;> simp [hr, hstep]

/-- The `Msg::ScanEvent` arm sets `last_event_id` from the batch cursor
inside the per-notification loop: a non-empty batch stores its cursor, a
zero-notification batch leaves the stored cursor untouched. -/
theorem applyScanEvent_cursor (now : ℚ) (s : State) (events : List ScanStatus)
    (c : String) :
    (applyScanEvent now s events c).1.last_event_id
      = if events.isEmpty then s.last_event_id else some c :=
  foldl_scanEventStep_cursor now c events (s, [])

/-- C4 counterexample: a successfully decoded batch with zero notifications
does not update the stored cursor — after the batches `("c1", one
notification)` then `("c2", empty)`, the stored cursor is still `"c1"`,
not the cursor `"c2"` of the last batch processed. -/
theorem resume_cursor_counterexample :
    (processBatches ⟨[], none⟩
        [⟨[⟨1, .scanning⟩], "c1", 0⟩, ⟨[], "c2", 1⟩]).last_event_id
      = some "c1"
    ∧ (processBatches ⟨[], none⟩
        [⟨[⟨1, .scanning⟩], "c1", 0⟩, ⟨[], "c2", 1⟩]).last_event_id
      ≠ some "c2" := by
  constructor <;>
    simp [processBatches, applyScanEvent, scanEventStep]

/-- C4 as amended: after processing any sequence of decoded batches, the
stored cursor equals the cursor of the last batch that contained at least
one notification (or keeps its prior value when no batch did) — regardless
of how many individual notifications were accepted or rejected by the
transition rules, since the cursor write does not depend on the transition
taken. -/
theorem resume_cursor_last_nonempty (s : State) (bs : List Batch) :
    (processBatches s bs).last_event_id
      = lastNonemptyCursor s.last_event_id bs := by
  induction bs generalizing s with
  | nil => rfl
  | cons b rest ih =>
    rw [processBatches, lastNonemptyCursor, ih, applyScanEvent_cursor]

/-! ### Reconnection -/

/-- C5: a liveness probe that finds the current connection dead (or
absent) replaces it; the effect list of that dispatch closes the old
connection exactly once (it is dropped exactly once, `Drop` closes it);
the replacement subscription URL carries the recorded resume cursor
whenever one is recorded, and the very first connection attempt
(`App::create`) carries no cursor.  A probe that finds the connection
live does nothing. -/
theorem reconnect_uses_latest_cursor (s : AppState) (task : EventSourceTask)
    (now : ℚ) (c : String) :
    (s.event_source_task = some task →
      updateApp now s (.connectionCheck false)
        = ({ s with event_source_task := some ⟨sseUrl s.state.last_event_id⟩ },
           [.warn "SSE connection lost. Reconnecting!", .closeConn task.url]))
    ∧ (s.event_source_task = some task →
        updateApp now s (.connectionCheck true) = (s, []))
    ∧ (s.event_source_task = none →
        updateApp now s (.connectionCheck false)
          = ({ s with event_source_task := some ⟨sseUrl s.state.last_event_id⟩ },
             [.warn "SSE connection lost. Reconnecting!"]))
    ∧ sseUrl (some c) = MERCURE_URL ++ "&Last-Event-ID=" ++ c
    ∧ createApp.event_source_task = some ⟨sseUrl none⟩
    ∧ sseUrl none = MERCURE_URL := by
  refine ⟨?_, ?_, ?_, rfl, rfl, rfl⟩ <;>
    intro h <;> simp [updateApp, h, connect_sse_task]

theorem reconnect_uses_latest_cursor_witness :
    updateApp 0 ⟨⟨[], some "abc"⟩, some ⟨"oldurl"⟩⟩ (.connectionCheck false)
      = (⟨⟨[], some "abc"⟩, some ⟨sseUrl (some "abc")⟩⟩,
         [.warn "SSE connection lost. Reconnecting!", .closeConn "oldurl"]) :=
  (reconnect_uses_latest_cursor ⟨⟨[], some "abc"⟩, some ⟨"oldurl"⟩⟩
    ⟨"oldurl"⟩ 0 "abc").1 rfl

/-! ### The decoder -/

/-- Decoding a batch is all-or-nothing: one undecodable element fails the
whole `Vec<ScanStatus>` deserialization. -/
theorem mapM_decode_none (xs : List Json) (x : Json) (hmem : x ∈ xs)
    (hx : decodeScanStatus x = none) :
    xs.mapM decodeScanStatus = none := by
  induction xs with
  | nil => cases hmem
  | cons y ys ih =>
    rw [List.mapM_cons]
    rcases List.mem_cons.mp hmem with h | h
    · subst h; rw [hx]; rfl
    · rw [ih h]; cases decodeScanStatus y <;> rfl

/-- C6: a payload that fails to decode (malformed, schema-violating, or
with an unrecognized status tag) fails as a whole — one bad element drops
the entire batch — and is turned into a `LogError` dispatch whose handling
logs a diagnostic and leaves the scans registry, the stored resume cursor
and the connection entirely unchanged; the handler returns normally, so
the loop continues.  Raw text that is not JSON at all takes the same
`LogError` path. -/
theorem decode_failure_atomic (j : Json) (c : String) (now : ℚ)
    (s : AppState) (xs : List Json) (x : Json) :
    (decodeBatch j = none →
      callbackMsg (some j) (some c)
        = .logError "Could not deserialize Json event."
      ∧ updateApp now s (.logError "Could not deserialize Json event.")
        = (s, [.log ("Got error: " ++ "Could not deserialize Json event.")]))
    ∧ (x ∈ xs → decodeScanStatus x = none → decodeBatch (.arr xs) = none)
    ∧ callbackMsg none (some c)
        = .logError "Something weird with event text or last message id :("
    ∧ updateApp now s
        (.logError "Something weird with event text or last message id :(")
      = (s, [.log ("Got error: " ++
          "Something weird with event text or last message id :(")]) := by
  refine ⟨fun h => ⟨?_, rfl⟩, fun hmem hx => mapM_decode_none xs x hmem hx,
    rfl, rfl⟩
  simp [callbackMsg, h]

theorem decode_failure_atomic_witness :
    callbackMsg (some (.str "not an array")) (some "c7")
      = .logError "Could not deserialize Json event."
    ∧ decodeBatch (.arr [Json.null]) = none :=
  ⟨((decode_failure_atomic (.str "not an array") "c7" 0
      ⟨⟨[], none⟩, none⟩ [] .null).1 rfl).1,
    (decode_failure_atomic (.str "not an array") "c7" 0
      ⟨⟨[], none⟩, none⟩ [Json.null] .null).2.1
      (List.mem_singleton.mpr rfl) rfl⟩

/-- C7 counterexample: a status tag differing from a recognized value only
in letter case is not accepted: the payload `[{"scanId": 1, "status":
"Scanning"}]` fails to decode (it is not case-normalized to `scanning`). -/
theorem status_tag_case_counterexample :
    decodeBatch (.arr [.obj [("scanId", .num 1), ("status", .str "Scanning")]])
      = none := by
  rfl

/-- C7 as amended: the decoder recognizes exactly the three lower-case
status tags `scanning`, `scanned`, `failed` (the fixed wire form produced
by serde's lowercase renaming); any other tag — including one differing
from a recognized value only in letter case — fails decoding rather than
being normalized. -/
theorem status_tag_exact_lowercase (n : Int) (tag : String)
    (h1 : -(2 ^ 31) ≤ n) (h2 : n < 2 ^ 31) :
    decodeBatch (.arr [.obj [("scanId", .num n), ("status", .str tag)]])
      = if tag = "scanning" then some [⟨n, .scanning⟩]
        else if tag = "scanned" then some [⟨n, .scanned⟩]
        else if tag = "failed" then some [⟨n, .failed⟩]
        else none := by
  have hrange : -(2 ^ 31) ≤ n ∧ n < 2 ^ 31 := ⟨h1, h2⟩
  norm_num at hrange
  simp only [decodeBatch]
  rw [List.mapM_cons, List.mapM_nil]
  simp [decodeScanStatus, List.lookup, decodeScanStatusState, hrange]
  split_ifs <;> rfl

theorem status_tag_exact_lowercase_witness :
    decodeBatch (.arr [.obj [("scanId", .num 1), ("status", .str "Scanned")]])
      = none := by
  rw [status_tag_exact_lowercase 1 "Scanned" (by norm_num) (by norm_num)]
  rfl

/-! ### Durations -/

/-- Duplicate `scanning` notifications do not reset a running job's
recorded start time. -/
theorem applySeq_scanning_dups (id : Int) (t0 : ℚ) (dups : List ℚ) :
    ∀ m : ScanMap, lookupScan m id = some (.scanning t0) →
      lookupScan (applySeq m (dups.map fun t => (⟨id, .scanning⟩, t))) id
        = some (.scanning t0) := by
  induction dups with
  | nil => intro m h; exact h
  | cons t rest ih =>
    intro m h
    rw [List.map_cons, applySeq]
    exact ih _ (by simp [applyOne, h, lookupScan_insertScan_self])

/-- C8: a job first seen via `scanning` at time `t0`, hit by any number of
duplicate `scanning` notifications at arbitrary times, then receiving
`scanned` at time `t0 + D`, ends `Scanned` with stored duration
`perf_to_duration D` — the duration measures first-seen to completion. -/
theorem duration_first_seen_to_completion (s : ScanMap) (id : Int)
    (t0 D : ℚ) (dups : List ℚ) (h : lookupScan s id = none) :
    lookupScan
      (applyOne (t0 + D)
        (applySeq (applyOne t0 s ⟨id, .scanning⟩)
          (dups.map fun t => (⟨id, .scanning⟩, t)))
        ⟨id, .scanned⟩) id
      = some (.scanned (perf_to_duration D)) := by
  have h1 : lookupScan (applyOne t0 s ⟨id, .scanning⟩) id
      = some (.scanning t0) := by
    simp [applyOne, h, lookupScan_insertScan_self]
  have h2 := applySeq_scanning_dups id t0 dups _ h1
  have h3 : t0 + D - t0 = D := by ring
  generalize hM : applySeq (applyOne t0 s ⟨id, .scanning⟩)
      (dups.map fun t => (⟨id, .scanning⟩, t)) = M at h2 ⊢
  simp [applyOne, h2, h3, lookupScan_insertScan_self]

theorem duration_first_seen_to_completion_witness :
    lookupScan
      (applyOne ((0 : ℚ) + 5000)
        (applySeq (applyOne 0 [] ⟨1, .scanning⟩)
          ([(2 : ℚ)].map fun t => (⟨1, .scanning⟩, t)))
        ⟨1, .scanned⟩) 1
      = some (ScanState.scanned ⟨5, 0⟩) := by
  rw [duration_first_seen_to_completion [] 1 0 5000 [(2 : ℚ)] rfl]
  norm_num [perf_to_duration, rustCastU64, rustCastU32, durationNew]
  decide

/-! ### One timestamp per batch -/

theorem foldl_scanEventStep_scans (now : ℚ) (c : String)
    (events : List ScanStatus) :
    ∀ acc : State × List Effect,
      (events.foldl (scanEventStep now c) acc).1.scans
        = events.foldl (fun m e => applyOne now m e) acc.1.scans := by
  induction events with
  | nil => intro acc; rfl
  | cons e rest ih =>
    intro acc
    rw [List.foldl_cons, List.foldl_cons, ih]
    rfl

/-- Within a batch (all applied at the single captured time `now`), a job
that starts absent is only ever absent, `Scanning now`, or terminal with
duration `perf_to_duration 0`. -/
theorem foldl_applyOne_duration_zero (now : ℚ) (id : Int)
    (events : List ScanStatus) :
    ∀ m : ScanMap,
      (lookupScan m id = none ∨ lookupScan m id = some (.scanning now)
        ∨ lookupScan m id = some (.scanned (perf_to_duration 0))
        ∨ lookupScan m id = some (.failed (perf_to_duration 0))) →
      (lookupScan (events.foldl (fun m e => applyOne now m e) m) id = none
        ∨ lookupScan (events.foldl (fun m e => applyOne now m e) m) id
            = some (.scanning now)
        ∨ lookupScan (events.foldl (fun m e => applyOne now m e) m) id
            = some (.scanned (perf_to_duration 0))
        ∨ lookupScan (events.foldl (fun m e => applyOne now m e) m) id
            = some (.failed (perf_to_duration 0))) := by
  induction events with
  | nil => intro m h; exact h
  | cons e rest ih =>
    intro m h
    rw [List.foldl_cons]
    apply ih
    by_cases hid : id = e.scan_id
    · subst hid
      rcases h with h | h | h | h <;> cases hst : e.status <;>
        simp [applyOne, h, hst, lookupScan_insertScan_self, sub_self]
    · rcases h with h | h | h | h <;>
      · rw [applyOne, lookupScan_insertScan_ne _ _ _ _ hid, h]
        simp

/-- C9: all notifications of one delivered batch are applied at the single
`performance_now()` value captured at the start of the dispatch, so a job
that is both created and driven to a terminal state inside the same batch
records a final duration of exactly zero. -/
theorem single_timestamp_per_batch (now : ℚ) (s : State)
    (events : List ScanStatus) (c : String) (id : Int) (d : Duration)
    (h : lookupScan s.scans id = none) :
    (lookupScan (applyScanEvent now s events c).1.scans id
        = some (.scanned d) → d = ⟨0, 0⟩)
    ∧ (lookupScan (applyScanEvent now s events c).1.scans id
        = some (.failed d) → d = ⟨0, 0⟩) := by
  have hscans : (applyScanEvent now s events c).1.scans
      = events.foldl (fun m e => applyOne now m e) s.scans :=
    foldl_scanEventStep_scans now c events (s, [])
  have hinv := foldl_applyOne_duration_zero now id events s.scans (Or.inl h)
  rw [hscans]
  constructor <;> intro h2 <;>
    rcases hinv with h1 | h1 | h1 | h1 <;> rw [h1] at h2 <;>
      simp_all [perf_to_duration_zero]

theorem single_timestamp_per_batch_witness :
    (⟨0, 0⟩ : Duration) = ⟨0, 0⟩ :=
  (single_timestamp_per_batch 42 ⟨[], none⟩ [⟨1, .scanning⟩, ⟨1, .scanned⟩]
    "c" 1 ⟨0, 0⟩ rfl).1
    (by norm_num [applyScanEvent, scanEventStep, applyOne, lookupScan,
      insertScan, perf_to_duration_zero])

/-! ### perf_to_duration -/

/-- C10 counterexample: for `amt = 2^32 + 999` (which is ≥ 2^32) the
nanosecond component of `perf_to_duration amt` *does* equal
`(floor(amt) mod 1000)` milliseconds (both are 295 ms, since
`u32::MAX mod 1000 = 295` and `floor(amt) mod 1000 = 295`), contradicting
the claim that for every `amt ≥ 2^32` it no longer does. -/
theorem perf_saturation_counterexample :
    ((2 : ℚ) ^ 32 ≤ 4294968295)
    ∧ (perf_to_duration 4294968295).nanos
        = Int.toNat ⌊(4294968295 : ℚ)⌋ % 1000 * 1000000 := by
  constructor
  · norm_num
  · norm_num [perf_to_duration, rustCastU64, rustCastU32, durationNew]
    decide

/-- C10 as amended: for finite `amt` with `0 ≤ amt < 2^32`,
`perf_to_duration amt` is `floor(amt)/1000` whole seconds plus
`floor(amt) mod 1000` milliseconds as nanoseconds (sub-millisecond
precision discarded); for negative `amt` it is the zero duration; for
`amt ≥ 2^32` the nanosecond component comes from the saturated 32-bit cast
— it is the constant `(u32::MAX mod 1000) = 295` milliseconds, which
differs from `floor(amt) mod 1000` milliseconds except when
`floor(amt) ≡ 295 (mod 1000)`. -/
theorem perf_to_duration_characterization (amt : ℚ) :
    perf_to_duration amt =
      if amt < 0 then ⟨0, 0⟩
      else if amt < 2 ^ 32 then
        ⟨Int.toNat ⌊amt⌋ / 1000, Int.toNat ⌊amt⌋ % 1000 * 1000000⟩
      else
        ⟨min (Int.toNat ⌊amt⌋) (2 ^ 64 - 1) / 1000, 295000000⟩ := by
  split_ifs with hneg hlt
  · simp [perf_to_duration, rustCastU64, rustCastU32, hneg, durationNew]
  · have h0 : (0 : ℚ) ≤ amt := le_of_not_lt hneg
    have h1 : 0 ≤ ⌊amt⌋ := Int.floor_nonneg.mpr h0
    have h2 : ⌊amt⌋ < 4294967296 := by
      rw [Int.floor_lt]
      exact_mod_cast hlt
    simp only [perf_to_duration, rustCastU64, rustCastU32, durationNew,
      if_neg hneg, Duration.mk.injEq]
    omega
  · have h0 : (0 : ℚ) ≤ amt := le_of_not_lt hneg
    have h2 : (4294967296 : Int) ≤ ⌊amt⌋ := by
      rw [Int.le_floor]
      exact_mod_cast le_of_not_lt hlt
    simp only [perf_to_duration, rustCastU64, rustCastU32, durationNew,
      if_neg hneg, Duration.mk.injEq]
    omega

end ScanStream
